import Mathlib

/-!
Verification of the data-preparation layer of `run_FullRecall.py`, a BERT
fine-tuning runner for query/passage relevance.  The Python functions are
shallowly embedded: lists of tokens are `List String`, Python integers are
`Int` where a subtraction may go negative, fallible code returns `Option`.
-/

namespace FullRecall

/-- Python slice `xs[:n]`: for `n ≥ 0` it keeps the first `n` elements, for
`n < 0` it keeps the first `len(xs) + n` elements (clamped at zero). -/
def pySlice (xs : List α) (n : Int) : List α :=
  if 0 ≤ n then xs.take n.toNat else xs.take (xs.length - n.natAbs)

/-- `isInit c l` states that `c` is an initial segment of `l`. -/
def isInit (c l : List α) : Prop := c = l.take c.length

theorem isInit_refl (l : List α) : isInit l l := by
  simp [isInit]

theorem isInit_length_le {c l : List α} (h : isInit c l) : c.length ≤ l.length := by
  have hlen := congrArg List.length h
  rw [List.length_take] at hlen
  omega

theorem isInit_trans {c b a : List α} (h1 : isInit c b) (h2 : isInit b a) :
    isInit c a := by
  have hle : c.length ≤ b.length := isInit_length_le h1
  show c = a.take c.length
  calc c = b.take c.length := h1
    _ = (a.take b.length).take c.length := by rw [← h2]
    _ = a.take (min c.length b.length) := by rw [List.take_take]
    _ = a.take c.length := by rw [Nat.min_eq_left hle]

theorem isInit_dropLast (l : List α) : isInit l.dropLast l := by
  unfold isInit
  rw [List.dropLast_eq_take]
  congr 1
  simp [List.length_dropLast]

/-- Embedding of `_truncate_seq_pair` (run_FullRecall.py:398-412).  The Python
loop pops from the end of whichever list is currently longer (from `tokens_b`
on ties) until the combined length is at most `max_length`; `none` models the
`IndexError` raised by `pop` on an empty list (reachable only for a negative
`max_length`). -/
def truncate_seq_pair (tokens_a tokens_b : List String) (max_length : Int) :
    Option (List String × List String) :=
  if ((tokens_a.length + tokens_b.length : Nat) : Int) ≤ max_length then
    some (tokens_a, tokens_b)
  else if tokens_a.length > tokens_b.length then
    truncate_seq_pair tokens_a.dropLast tokens_b max_length
  else if tokens_b.isEmpty then
    none
  else
    truncate_seq_pair tokens_a tokens_b.dropLast max_length
termination_by tokens_a.length + tokens_b.length
decreasing_by
  · rw [List.length_dropLast]
    omega
  · cases tokens_b with
    | nil => simp at *
    | cons x xs => simp [List.length_dropLast]

theorem truncate_seq_pair_unfold (a b : List String) (m : Int) :
    truncate_seq_pair a b m =
      if ((a.length + b.length : Nat) : Int) ≤ m then some (a, b)
      else if a.length > b.length then truncate_seq_pair a.dropLast b m
      else if b.isEmpty then none
      else truncate_seq_pair a b.dropLast m := by
  rw [truncate_seq_pair]

/-- For a nonnegative budget the loop always returns, and each returned list
is an initial segment of its input, with combined length within the budget. -/
theorem truncate_seq_pair_spec (a b : List String) (m : Int) (hm : 0 ≤ m) :
    ∃ a' b', truncate_seq_pair a b m = some (a', b') ∧
      isInit a' a ∧ isInit b' b ∧
      ((a'.length + b'.length : Nat) : Int) ≤ m := by
  induction a, b, m using truncate_seq_pair.induct with
  | case1 a b m h =>
    exact ⟨a, b, by rw [truncate_seq_pair_unfold, if_pos h], isInit_refl a,
      isInit_refl b, h⟩
  | case2 a b m h hgt ih =>
    obtain ⟨a', b', heq, ha', hb', hlen⟩ := ih hm
    refine ⟨a', b', ?_, isInit_trans ha' (isInit_dropLast a), hb', hlen⟩
    rw [truncate_seq_pair_unfold, if_neg h, if_pos hgt]
    exact heq
  | case3 a b m h hgt hemp =>
    exfalso
    have hb0 : b.length = 0 := by simpa [List.isEmpty_iff_length_eq_zero] using hemp
    have ha0 : a.length ≤ b.length := by omega
    have hz : ((a.length + b.length : Nat) : Int) = 0 := by
      have : a.length = 0 := by omega
      simp [this, hb0]
    omega
  | case4 a b m h hgt hemp ih =>
    obtain ⟨a', b', heq, ha', hb', hlen⟩ := ih hm
    refine ⟨a', b', ?_, ha', isInit_trans hb' (isInit_dropLast b), hlen⟩
    rw [truncate_seq_pair_unfold, if_neg h, if_neg hgt, if_neg hemp]
    exact heq

/-- `InputExample` (run_FullRecall.py:46-64): a raw labeled example; `text_b`
and `label` are optional. -/
structure InputExample where
  guid : String
  text_a : String
  text_b : Option String
  label : Option String

/-- `InputFeatures` (run_FullRecall.py:67-74). -/
structure InputFeatures where
  input_ids : List Nat
  input_mask : List Nat
  segment_ids : List Nat
  label_id : Nat

/-- `RelevanceFeatures` (run_FullRecall.py:76-86). -/
structure RelevanceFeatures where
  query_ids : List Nat
  psg_ids : List Nat
  query_mask : List Nat
  psg_mask : List Nat
  query_segment_ids : List Nat
  psg_segment_ids : List Nat
  label_id : Nat

/-- Helper for `label_map`: lookup in the dict built from the labels of the
list, which are numbered from `i` on.  A later occurrence of the same label
overwrites an earlier one, matching Python dict-comprehension semantics. -/
def labelMapFrom (i : Nat) : List String → String → Option Nat
  | [], _ => none
  | l :: ls, s =>
    match labelMapFrom (i + 1) ls s with
    | some j => some j
    | none => if s = l then some i else none

/-- `label_map = {label : i for i, label in enumerate(label_list)}` as a lookup
function (run_FullRecall.py:251 and :332). -/
def label_map (label_list : List String) (s : String) : Option Nat :=
  labelMapFrom 0 label_list s

theorem labelMapFrom_eq_none_of_not_mem {s : String} {ls : List String}
    (h : s ∉ ls) (k : Nat) : labelMapFrom k ls s = none := by
  induction ls generalizing k with
  | nil => rfl
  | cons l ls ih =>
    have hne : s ≠ l := fun hc => h (hc ▸ List.mem_cons_self l ls)
    have htl : s ∉ ls := fun hc => h (List.mem_cons_of_mem l hc)
    simp [labelMapFrom, ih htl, hne]

theorem labelMapFrom_some_iff {ls : List String} (h : ls.Nodup) (k i : Nat)
    (s : String) :
    labelMapFrom k ls s = some i ↔ ∃ j, i = k + j ∧ ls.get? j = some s := by
  induction ls generalizing k i with
  | nil =>
    simp [labelMapFrom]
  | cons l ls ih =>
    obtain ⟨hl, hls⟩ := List.nodup_cons.mp h
    by_cases hsl : s = l
    · subst hsl
      have hnone : labelMapFrom (k + 1) ls s = none :=
        labelMapFrom_eq_none_of_not_mem hl (k + 1)
      simp only [labelMapFrom, hnone, if_pos rfl]
      constructor
      · intro hk
        exact ⟨0, by simpa using hk.symm, rfl⟩
      · rintro ⟨j, hij, hget⟩
        cases j with
        | zero => simp [hij]
        | succ j' =>
          exfalso
          exact hl (List.get?_mem (by simpa using hget))
    · have hstep : labelMapFrom k (l :: ls) s = labelMapFrom (k + 1) ls s := by
        simp only [labelMapFrom]
        cases labelMapFrom (k + 1) ls s with
        | none => simp [hsl]
        | some j => rfl
      rw [hstep, ih hls (k + 1) i]
      constructor
      · rintro ⟨j, hij, hget⟩
        exact ⟨j + 1, by omega, by simpa using hget⟩
      · rintro ⟨j, hij, hget⟩
        cases j with
        | zero =>
          exfalso
          exact hsl (by simpa using hget.symm)
        | succ j' =>
          exact ⟨j', by omega, by simpa using hget⟩

/-- Under a duplicate-free label list, `label_map` is exactly positional
lookup: `label_map ll s = some i` iff `s` sits at index `i`. -/
theorem label_map_some_iff {ll : List String} (h : ll.Nodup) (s : String)
    (i : Nat) : label_map ll s = some i ↔ ll.get? i = some s := by
  unfold label_map
  rw [labelMapFrom_some_iff h 0 i s]
  constructor
  · rintro ⟨j, hij, hget⟩
    simpa [hij] using hget
  · intro hget
    exact ⟨i, by omega, hget⟩

/-- Python truthiness of the optional `text_b` field (`if example.text_b:`,
run_FullRecall.py:258): `None` and the empty string are falsy. -/
def textBTruthy (ex : InputExample) : Bool :=
  match ex.text_b with
  | none => false
  | some s => if s = "" then false else true

/-- The single-sequence truncation `if len(tokens) > max_seq_length - 2:
tokens = tokens[:(max_seq_length - 2)]`, shared verbatim by
run_FullRecall.py:266-267 (on `tokens_a`) and :338-343 (on each side). -/
def truncate_single (tokens : List String) (max_seq_length : Nat) : List String :=
  if (tokens.length : Int) > (max_seq_length : Int) - 2 then
    pySlice tokens ((max_seq_length : Int) - 2)
  else tokens

/-- Loop body of `convert_examples_to_features` (run_FullRecall.py:254-326)
for one example.  The tokenizer is split into its two used methods:
`tokenize` and the per-token id mapping behind `convert_tokens_to_ids`.
`none` models any raised exception (an `IndexError` inside
`_truncate_seq_pair`, a failed `assert`, or a `KeyError` on the label). -/
def convert_example (tokenize : String → List String)
    (convert_token_to_id : String → Nat) (label_list : List String)
    (max_seq_length : Nat) (ex : InputExample) : Option InputFeatures :=
  let tokens_a0 := tokenize ex.text_a
  let step : Option (List String × Option (List String)) :=
    if textBTruthy ex then
      match truncate_seq_pair tokens_a0 (tokenize (ex.text_b.getD ""))
          ((max_seq_length : Int) - 3) with
      | none => none
      | some (a, b) => some (a, some b)
    else
      some (truncate_single tokens_a0 max_seq_length, none)
  match step with
  | none => none
  | some (tokens_a, tokens_b) =>
    let tokens0 := ["[CLS]"] ++ tokens_a ++ ["[SEP]"]
    let segment_ids0 := List.replicate tokens0.length (0 : Nat)
    let tokens := match tokens_b with
      | some tb => if tb.isEmpty then tokens0 else tokens0 ++ tb ++ ["[SEP]"]
      | none => tokens0
    let segment_ids1 := match tokens_b with
      | some tb => if tb.isEmpty then segment_ids0
          else segment_ids0 ++ List.replicate (tb.length + 1) (1 : Nat)
      | none => segment_ids0
    let input_ids0 := tokens.map convert_token_to_id
    let input_mask0 := List.replicate input_ids0.length (1 : Nat)
    let padding := List.replicate (max_seq_length - input_ids0.length) (0 : Nat)
    let input_ids := input_ids0 ++ padding
    let input_mask := input_mask0 ++ padding
    let segment_ids := segment_ids1 ++ padding
    if input_ids.length = max_seq_length ∧ input_mask.length = max_seq_length ∧
        segment_ids.length = max_seq_length then
      match ex.label with
      | none => none
      | some lab =>
        match label_map label_list lab with
        | none => none
        | some label_id => some ⟨input_ids, input_mask, segment_ids, label_id⟩
    else none

/-- `convert_examples_to_features` (run_FullRecall.py:248-327); a raised
exception in the loop body aborts the whole conversion. -/
def convert_examples_to_features (tokenize : String → List String)
    (convert_token_to_id : String → Nat) (examples : List InputExample)
    (label_list : List String) (max_seq_length : Nat) :
    Option (List InputFeatures) :=
  match examples with
  | [] => some []
  | ex :: rest =>
    match convert_example tokenize convert_token_to_id label_list max_seq_length ex,
      convert_examples_to_features tokenize convert_token_to_id rest label_list
        max_seq_length with
    | some f, some fs => some (f :: fs)
    | _, _ => none

/-- Loop body of `convert_examples_to_relevance_features`
(run_FullRecall.py:335-394) for one example.  `none` on a missing `text_b`
models the `AttributeError` from tokenizing `None`; `none` further models a
failed `assert` or a `KeyError` on the label. -/
def convert_relevance_example (tokenize : String → List String)
    (convert_token_to_id : String → Nat) (label_list : List String)
    (max_seq_length : Nat) (ex : InputExample) :
    Option RelevanceFeatures :=
  match ex.text_b with
  | none => none
  | some text_b =>
    let tokens_a := truncate_single (tokenize ex.text_a) max_seq_length
    let tokens_b := truncate_single (tokenize text_b) max_seq_length
    let tokens_1 := ["[CLS]"] ++ tokens_a ++ ["[SEP]"]
    let query_segment_ids0 := List.replicate tokens_1.length (0 : Nat)
    let tokens_2 := ["[CLS]"] ++ tokens_b ++ ["[SEP]"]
    let psg_segment_ids0 := List.replicate tokens_2.length (0 : Nat)
    let query_ids0 := tokens_1.map convert_token_to_id
    let psg_ids0 := tokens_2.map convert_token_to_id
    let query_mask0 := List.replicate query_ids0.length (1 : Nat)
    let psg_mask0 := List.replicate psg_ids0.length (1 : Nat)
    let query_padding := List.replicate (max_seq_length - query_ids0.length) (0 : Nat)
    let psg_padding := List.replicate (max_seq_length - psg_ids0.length) (0 : Nat)
    let query_ids := query_ids0 ++ query_padding
    let query_mask := query_mask0 ++ query_padding
    let query_segment_ids := query_segment_ids0 ++ query_padding
    let psg_ids := psg_ids0 ++ psg_padding
    let psg_mask := psg_mask0 ++ psg_padding
    let psg_segment_ids := psg_segment_ids0 ++ psg_padding
    if query_ids.length = max_seq_length ∧ query_mask.length = max_seq_length ∧
        query_segment_ids.length = max_seq_length ∧
        psg_ids.length = max_seq_length ∧ psg_mask.length = max_seq_length ∧
        psg_segment_ids.length = max_seq_length then
      match ex.label with
      | none => none
      | some lab =>
        match label_map label_list lab with
        | none => none
        | some label_id =>
          some ⟨query_ids, psg_ids, query_mask, psg_mask, query_segment_ids,
            psg_segment_ids, label_id⟩
    else none

/-- `convert_examples_to_relevance_features` (run_FullRecall.py:329-396); a
raised exception in the loop body aborts the whole conversion. -/
def convert_examples_to_relevance_features (tokenize : String → List String)
    (convert_token_to_id : String → Nat) (examples : List InputExample)
    (label_list : List String) (max_seq_length : Nat) :
    Option (List RelevanceFeatures) :=
  match examples with
  | [] => some []
  | ex :: rest =>
    match convert_relevance_example tokenize convert_token_to_id label_list
        max_seq_length ex,
      convert_examples_to_relevance_features tokenize convert_token_to_id rest
        label_list max_seq_length with
    | some f, some fs => some (f :: fs)
    | _, _ => none

theorem truncate_single_length_le {tokens : List String} {max_seq_length : Nat}
    (h : 2 ≤ max_seq_length) :
    (truncate_single tokens max_seq_length).length + 2 ≤ max_seq_length := by
  unfold truncate_single pySlice
  split
  · rw [if_pos (by omega)]
    simp only [List.length_take]
    omega
  · rename_i hle
    rw [not_lt] at hle
    omega

theorem labelMapFrom_isSome_of_mem {s : String} {ls : List String}
    (h : s ∈ ls) (k : Nat) : ∃ i, labelMapFrom k ls s = some i := by
  induction ls generalizing k with
  | nil => cases h
  | cons l ls ih =>
    by_cases hmem : s ∈ ls
    · obtain ⟨i, hi⟩ := ih hmem (k + 1)
      exact ⟨i, by simp [labelMapFrom, hi]⟩
    · have hsl : s = l := by
        rcases List.mem_cons.mp h with h1 | h2
        · exact h1
        · exact absurd h2 hmem
      subst hsl
      refine ⟨k, ?_⟩
      simp [labelMapFrom, labelMapFrom_eq_none_of_not_mem hmem]

theorem label_map_isSome_of_mem {s : String} {ls : List String} (h : s ∈ ls) :
    ∃ i, label_map ls s = some i :=
  labelMapFrom_isSome_of_mem h 0

/-- Computation of a successful `convert_relevance_example` run: when both
truncated sides fit the budget and the label is in the map, the emitted record
is `[CLS] side [SEP]` mapped to ids and zero-padded, with an all-ones mask over
the real tokens and all-zero segment ids. -/
theorem convert_relevance_example_eq_some
    {tokenize : String → List String} {tid : String → Nat} {ll : List String}
    {max_seq_length : Nat} {ex : InputExample} {tb lab : String} {lid : Nat}
    (htb : ex.text_b = some tb) (hlab : ex.label = some lab)
    (hmap : label_map ll lab = some lid)
    (A B : List String)
    (hA : A = truncate_single (tokenize ex.text_a) max_seq_length)
    (hB : B = truncate_single (tokenize tb) max_seq_length)
    (ha : A.length + 2 ≤ max_seq_length) (hb : B.length + 2 ≤ max_seq_length) :
    convert_relevance_example tokenize tid ll max_seq_length ex =
      some { query_ids := ("[CLS]" :: (A ++ ["[SEP]"])).map tid ++
               List.replicate (max_seq_length - (A.length + 2)) 0,
             psg_ids := ("[CLS]" :: (B ++ ["[SEP]"])).map tid ++
               List.replicate (max_seq_length - (B.length + 2)) 0,
             query_mask := List.replicate (A.length + 2) 1 ++
               List.replicate (max_seq_length - (A.length + 2)) 0,
             psg_mask := List.replicate (B.length + 2) 1 ++
               List.replicate (max_seq_length - (B.length + 2)) 0,
             query_segment_ids := List.replicate (A.length + 2) 0 ++
               List.replicate (max_seq_length - (A.length + 2)) 0,
             psg_segment_ids := List.replicate (B.length + 2) 0 ++
               List.replicate (max_seq_length - (B.length + 2)) 0,
             label_id := lid } := by
  subst hA hB
  simp only [convert_relevance_example, htb, hlab, hmap, List.singleton_append,
    List.length_append, List.length_map, List.length_cons, List.length_replicate,
    List.length_nil, Nat.zero_add]
  rw [if_pos (by omega)]
  simp_arith

/-- Inversion of a successful `convert_relevance_example` run: the example had
a `text_b` and a label known to the map, and (because otherwise the length
assertions reject the record) each truncated side fits in
`max_seq_length - 2`. -/
theorem convert_relevance_example_some_inv
    {tokenize : String → List String} {tid : String → Nat} {ll : List String}
    {max_seq_length : Nat} {ex : InputExample} {f : RelevanceFeatures}
    (h : convert_relevance_example tokenize tid ll max_seq_length ex = some f) :
    ∃ tb lab, ex.text_b = some tb ∧ ex.label = some lab ∧
      label_map ll lab = some f.label_id ∧
      (truncate_single (tokenize ex.text_a) max_seq_length).length + 2 ≤
        max_seq_length ∧
      (truncate_single (tokenize tb) max_seq_length).length + 2 ≤
        max_seq_length := by
  cases htb : ex.text_b with
  | none => rw [convert_relevance_example, htb] at h; exact absurd h (by simp)
  | some tb =>
    refine ⟨tb, ?_⟩
    rw [convert_relevance_example, htb] at h
    simp only [List.singleton_append, List.length_append, List.length_map,
      List.length_cons, List.length_replicate, List.length_nil, Nat.zero_add] at h
    split at h
    case isFalse => exact absurd h (by simp)
    case isTrue hcond =>
      cases hlab : ex.label with
      | none => rw [hlab] at h; simp at h
      | some lab =>
        rw [hlab] at h
        dsimp only at h
        cases hmap : label_map ll lab with
        | none => rw [hmap] at h; simp at h
        | some lid =>
          rw [hmap] at h
          dsimp only at h
          injection h with h'
          exact ⟨lab, rfl, rfl, by rw [hmap, ← h'], by omega, by omega⟩

/-- Every record emitted by `convert_relevance_example` passes the six length
assertions: each field has length exactly `max_seq_length`. -/
theorem convert_relevance_example_some_lengths
    {tokenize : String → List String} {tid : String → Nat} {ll : List String}
    {max_seq_length : Nat} {ex : InputExample} {f : RelevanceFeatures}
    (h : convert_relevance_example tokenize tid ll max_seq_length ex = some f) :
    f.query_ids.length = max_seq_length ∧ f.psg_ids.length = max_seq_length ∧
    f.query_mask.length = max_seq_length ∧ f.psg_mask.length = max_seq_length ∧
    f.query_segment_ids.length = max_seq_length ∧
    f.psg_segment_ids.length = max_seq_length := by
  cases htb : ex.text_b with
  | none => rw [convert_relevance_example, htb] at h; exact absurd h (by simp)
  | some tb =>
    rw [convert_relevance_example, htb] at h
    dsimp only at h
    split at h
    case isFalse => exact absurd h (by simp)
    case isTrue hcond =>
      cases hlab : ex.label with
      | none => rw [hlab] at h; simp at h
      | some lab =>
        rw [hlab] at h
        dsimp only at h
        cases hmap : label_map ll lab with
        | none => rw [hmap] at h; simp at h
        | some lid =>
          rw [hmap] at h
          dsimp only at h
          injection h with h'
          rw [← h']
          exact ⟨hcond.1, hcond.2.2.2.1, hcond.2.1, hcond.2.2.2.2.1,
            hcond.2.2.1, hcond.2.2.2.2.2⟩

theorem convert_relevance_example_success
    {tokenize : String → List String} {tid : String → Nat} {ll : List String}
    {max_seq_length : Nat} {ex : InputExample} {tb lab : String} {lid : Nat}
    (h2 : 2 ≤ max_seq_length) (htb : ex.text_b = some tb)
    (hlab : ex.label = some lab) (hmap : label_map ll lab = some lid) :
    ∃ f, convert_relevance_example tokenize tid ll max_seq_length ex = some f :=
  ⟨_, convert_relevance_example_eq_some htb hlab hmap _ _ rfl rfl
    (truncate_single_length_le h2) (truncate_single_length_le h2)⟩


theorem convert_example_some_lengths
    {tokenize : String → List String} {tid : String → Nat} {ll : List String}
    {max_seq_length : Nat} {ex : InputExample} {f : InputFeatures}
    (h : convert_example tokenize tid ll max_seq_length ex = some f) :
    f.input_ids.length = max_seq_length ∧ f.input_mask.length = max_seq_length ∧
    f.segment_ids.length = max_seq_length := by
  rw [convert_example] at h
  dsimp only at h
  by_cases hbt : textBTruthy ex = true
  · rw [if_pos hbt] at h
    cases htp : truncate_seq_pair (tokenize ex.text_a)
        (tokenize (ex.text_b.getD "")) ((max_seq_length : Int) - 3) with
    | none => rw [htp] at h; simp at h
    | some p =>
      obtain ⟨a, b⟩ := p
      rw [htp] at h
      dsimp only at h
      by_cases hbe : b.isEmpty = true
      · rw [if_pos hbe, if_pos hbe] at h
        split at h
        rotate_left
        · exact absurd h (by simp)
        rename_i hcond
        cases hlab : ex.label with
        | none => rw [hlab] at h; simp at h
        | some lab =>
          rw [hlab] at h
          dsimp only at h
          cases hmap : label_map ll lab with
          | none => rw [hmap] at h; simp at h
          | some lid =>
            rw [hmap] at h
            dsimp only at h
            injection h with h1
            rw [← h1]
            exact hcond
      · rw [if_neg hbe, if_neg hbe] at h
        split at h
        rotate_left
        · exact absurd h (by simp)
        rename_i hcond
        cases hlab : ex.label with
        | none => rw [hlab] at h; simp at h
        | some lab =>
          rw [hlab] at h
          dsimp only at h
          cases hmap : label_map ll lab with
          | none => rw [hmap] at h; simp at h
          | some lid =>
            rw [hmap] at h
            dsimp only at h
            injection h with h1
            rw [← h1]
            exact hcond
  · rw [if_neg hbt] at h
    dsimp only at h
    split at h
    rotate_left
    · exact absurd h (by simp)
    rename_i hcond
    cases hlab : ex.label with
    | none => rw [hlab] at h; simp at h
    | some lab =>
      rw [hlab] at h
      dsimp only at h
      cases hmap : label_map ll lab with
      | none => rw [hmap] at h; simp at h
      | some lid =>
        rw [hmap] at h
        dsimp only at h
        injection h with h1
        rw [← h1]
        exact hcond


theorem convert_example_single_bound
    {tokenize : String → List String} {tid : String → Nat} {ll : List String}
    {max_seq_length : Nat} {ex : InputExample} {f : InputFeatures}
    (hbt : textBTruthy ex = false)
    (h : convert_example tokenize tid ll max_seq_length ex = some f) :
    (truncate_single (tokenize ex.text_a) max_seq_length).length + 2 ≤
      max_seq_length := by
  rw [convert_example] at h
  dsimp only at h
  rw [if_neg (by simp [hbt])] at h
  dsimp only at h
  simp only [List.singleton_append, List.length_append, List.length_map,
    List.length_cons, List.length_replicate, List.length_nil, Nat.zero_add] at h
  split at h
  rotate_left
  · exact absurd h (by simp)
  rename_i hcond
  omega

theorem convert_example_success
    {tokenize : String → List String} {tid : String → Nat} {ll : List String}
    {max_seq_length : Nat} {ex : InputExample} {lab : String} {lid : Nat}
    (h2 : 2 ≤ max_seq_length) (htr : textBTruthy ex = true → 3 ≤ max_seq_length)
    (hlab : ex.label = some lab) (hmap : label_map ll lab = some lid) :
    ∃ f, convert_example tokenize tid ll max_seq_length ex = some f := by
  have hsome : (convert_example tokenize tid ll max_seq_length ex).isSome = true := by
    rw [convert_example]
    dsimp only
    by_cases hbt : textBTruthy ex = true
    · have h3 := htr hbt
      obtain ⟨a, b, heq, ha, hb, hlen⟩ :=
        truncate_seq_pair_spec (tokenize ex.text_a) (tokenize (ex.text_b.getD ""))
          ((max_seq_length : Int) - 3) (by omega)
      have hlenN : a.length + b.length + 3 ≤ max_seq_length := by omega
      rw [if_pos hbt, heq]
      dsimp only
      by_cases hbe : b.isEmpty = true
      · rw [if_pos hbe, if_pos hbe]
        rw [if_pos]
        · rw [hlab]
          dsimp only
          rw [hmap]
          rfl
        · simp only [List.singleton_append, List.length_append, List.length_map,
            List.length_cons, List.length_replicate, List.length_nil, Nat.zero_add]
          omega
      · rw [if_neg hbe, if_neg hbe]
        rw [if_pos]
        · rw [hlab]
          dsimp only
          rw [hmap]
          rfl
        · simp only [List.singleton_append, List.length_append, List.length_map,
            List.length_cons, List.length_replicate, List.length_nil, Nat.zero_add]
          have hbne : b.length ≠ 0 := by
            intro h0
            exact hbe (by simpa [List.isEmpty_iff_length_eq_zero] using h0)
          omega
    · rw [if_neg hbt]
      dsimp only
      have hts := @truncate_single_length_le (tokenize ex.text_a)
        max_seq_length h2
      rw [if_pos]
      · rw [hlab]
        dsimp only
        rw [hmap]
        rfl
      · simp only [List.singleton_append, List.length_append, List.length_map,
          List.length_cons, List.length_replicate, List.length_nil, Nat.zero_add]
        omega
  exact Option.isSome_iff_exists.mp hsome


theorem convert_examples_to_features_success
    {tokenize : String → List String} {tid : String → Nat} {ll : List String}
    {max_seq_length : Nat} {examples : List InputExample}
    (hall : ∀ ex ∈ examples, ∃ f,
      convert_example tokenize tid ll max_seq_length ex = some f) :
    ∃ fs, convert_examples_to_features tokenize tid examples ll
        max_seq_length = some fs ∧
      ∀ f ∈ fs, ∃ ex ∈ examples,
        convert_example tokenize tid ll max_seq_length ex = some f := by
  induction examples with
  | nil => exact ⟨[], rfl, by simp⟩
  | cons ex rest ih =>
    obtain ⟨f, hf⟩ := hall ex (List.mem_cons_self ex rest)
    obtain ⟨fs, hfs, hmem⟩ := ih (fun e he => hall e (List.mem_cons_of_mem ex he))
    refine ⟨f :: fs, ?_, ?_⟩
    · rw [convert_examples_to_features, hf, hfs]
    · intro g hg
      rcases List.mem_cons.mp hg with hgf | hg2
      · exact ⟨ex, List.mem_cons_self ex rest, by rw [hgf]; exact hf⟩
      · obtain ⟨e, he, hfe⟩ := hmem g hg2
        exact ⟨e, List.mem_cons_of_mem ex he, hfe⟩

theorem convert_examples_to_features_mem
    {tokenize : String → List String} {tid : String → Nat} {ll : List String}
    {max_seq_length : Nat} {examples : List InputExample}
    {fs : List InputFeatures} {f : InputFeatures}
    (h : convert_examples_to_features tokenize tid examples ll
      max_seq_length = some fs) (hf : f ∈ fs) :
    ∃ ex ∈ examples, convert_example tokenize tid ll max_seq_length ex = some f := by
  induction examples generalizing fs with
  | nil =>
    rw [convert_examples_to_features] at h
    injection h with h1
    subst h1
    simp at hf
  | cons ex rest ih =>
    rw [convert_examples_to_features] at h
    cases hE : convert_example tokenize tid ll max_seq_length ex with
    | none => rw [hE] at h; simp at h
    | some g =>
      cases hR : convert_examples_to_features tokenize tid rest ll
          max_seq_length with
      | none => rw [hE, hR] at h; simp at h
      | some gs =>
        rw [hE, hR] at h
        dsimp only at h
        injection h with h1
        subst h1
        rcases List.mem_cons.mp hf with hfg | hmem
        · exact ⟨ex, List.mem_cons_self ex rest, by rw [hfg]; exact hE⟩
        · obtain ⟨e, he, hfe⟩ := ih hR hmem
          exact ⟨e, List.mem_cons_of_mem ex he, hfe⟩

theorem convert_examples_to_relevance_features_success
    {tokenize : String → List String} {tid : String → Nat} {ll : List String}
    {max_seq_length : Nat} {examples : List InputExample}
    (hall : ∀ ex ∈ examples, ∃ f,
      convert_relevance_example tokenize tid ll max_seq_length ex = some f) :
    ∃ fs, convert_examples_to_relevance_features tokenize tid examples ll
        max_seq_length = some fs ∧
      ∀ f ∈ fs, ∃ ex ∈ examples,
        convert_relevance_example tokenize tid ll max_seq_length ex = some f := by
  induction examples with
  | nil => exact ⟨[], rfl, by simp⟩
  | cons ex rest ih =>
    obtain ⟨f, hf⟩ := hall ex (List.mem_cons_self ex rest)
    obtain ⟨fs, hfs, hmem⟩ := ih (fun e he => hall e (List.mem_cons_of_mem ex he))
    refine ⟨f :: fs, ?_, ?_⟩
    · rw [convert_examples_to_relevance_features, hf, hfs]
    · intro g hg
      rcases List.mem_cons.mp hg with hgf | hg2
      · exact ⟨ex, List.mem_cons_self ex rest, by rw [hgf]; exact hf⟩
      · obtain ⟨e, he, hfe⟩ := hmem g hg2
        exact ⟨e, List.mem_cons_of_mem ex he, hfe⟩

theorem convert_examples_to_relevance_features_mem
    {tokenize : String → List String} {tid : String → Nat} {ll : List String}
    {max_seq_length : Nat} {examples : List InputExample}
    {fs : List RelevanceFeatures} {f : RelevanceFeatures}
    (h : convert_examples_to_relevance_features tokenize tid examples ll
      max_seq_length = some fs) (hf : f ∈ fs) :
    ∃ ex ∈ examples,
      convert_relevance_example tokenize tid ll max_seq_length ex = some f := by
  induction examples generalizing fs with
  | nil =>
    rw [convert_examples_to_relevance_features] at h
    injection h with h1
    subst h1
    simp at hf
  | cons ex rest ih =>
    rw [convert_examples_to_relevance_features] at h
    cases hE : convert_relevance_example tokenize tid ll max_seq_length ex with
    | none => rw [hE] at h; simp at h
    | some g =>
      cases hR : convert_examples_to_relevance_features tokenize tid rest ll
          max_seq_length with
      | none => rw [hE, hR] at h; simp at h
      | some gs =>
        rw [hE, hR] at h
        dsimp only at h
        injection h with h1
        subst h1
        rcases List.mem_cons.mp hf with hfg | hmem
        · exact ⟨ex, List.mem_cons_self ex rest, by rw [hfg]; exact hE⟩
        · obtain ⟨e, he, hfe⟩ := ih hR hmem
          exact ⟨e, List.mem_cons_of_mem ex he, hfe⟩

/-- A concrete character-level tokenizer, used to run the converters on
concrete inputs. -/
def charTokenize (s : String) : List String := s.data.map (fun c => String.mk [c])

/-- A concrete token-to-id mapping, used to run the converters on concrete
inputs. -/
def charTokenId (s : String) : Nat := s.length

/-- C2: `_truncate_seq_pair` repeatedly removes one token from the end of
whichever of the two lists is currently longer (from `tokens_b` when they are
equal) until the combined length is at most `max_length`, and for every
`max_length ≥ 0` it returns each list as an initial segment of its original
value with combined length at most `max_length`. -/
theorem claim_c2_truncate_seq_pair (a b : List String) (m : Int) (hm : 0 ≤ m) :
    (truncate_seq_pair a b m =
      if ((a.length + b.length : Nat) : Int) ≤ m then some (a, b)
      else if a.length > b.length then truncate_seq_pair a.dropLast b m
      else truncate_seq_pair a b.dropLast m) ∧
    ∃ a' b', truncate_seq_pair a b m = some (a', b') ∧
      a' = a.take a'.length ∧ b' = b.take b'.length ∧
      ((a'.length + b'.length : Nat) : Int) ≤ m := by
  constructor
  · rw [truncate_seq_pair_unfold]
    by_cases h1 : ((a.length + b.length : Nat) : Int) ≤ m
    · rw [if_pos h1, if_pos h1]
    · rw [if_neg h1, if_neg h1]
      by_cases h2 : a.length > b.length
      · rw [if_pos h2, if_pos h2]
      · rw [if_neg h2, if_neg h2]
        have hbe : ¬ b.isEmpty = true := by
          intro he
          have hb0 : b.length = 0 := by
            simpa [List.isEmpty_iff_length_eq_zero] using he
          omega
        rw [if_neg hbe]
  · obtain ⟨a', b', heq, ha', hb', hlen⟩ := truncate_seq_pair_spec a b m hm
    exact ⟨a', b', heq, ha', hb', hlen⟩

/-- Witness for C2: the three-and-one token lists under budget 2. -/
theorem claim_c2_witness :
    ∃ a' b', truncate_seq_pair ["x", "y", "z"] ["u"] 2 = some (a', b') ∧
      a' = (["x", "y", "z"] : List String).take a'.length ∧
      b' = (["u"] : List String).take b'.length ∧
      ((a'.length + b'.length : Nat) : Int) ≤ 2 :=
  (claim_c2_truncate_seq_pair ["x", "y", "z"] ["u"] 2 (by decide)).2

/-- C9: for every pair of finite token lists and every `max_length ≥ 0` the
while-loop of `_truncate_seq_pair` terminates: each iteration that does not
exit strictly decreases the combined length of the two lists, and the loop
returns. -/
theorem claim_c9_termination (a b : List String) (m : Int) (hm : 0 ≤ m)
    (hne : ¬ ((a.length + b.length : Nat) : Int) ≤ m) :
    (if a.length > b.length then a.dropLast.length + b.length
      else a.length + b.dropLast.length) < a.length + b.length ∧
    ∃ r, truncate_seq_pair a b m = some r := by
  constructor
  · by_cases hgt : a.length > b.length
    · rw [if_pos hgt, List.length_dropLast]
      omega
    · rw [if_neg hgt, List.length_dropLast]
      omega
  · obtain ⟨a', b', heq, _, _, _⟩ := truncate_seq_pair_spec a b m hm
    exact ⟨(a', b'), heq⟩

/-- Witness for C9: two-and-one token lists over budget 1. -/
theorem claim_c9_witness :
    (0 : Int) ≤ 1 ∧
    ¬ ((((["x", "y"] : List String).length + (["z"] : List String).length :
        Nat) : Int) ≤ 1) ∧
    ((if (["x", "y"] : List String).length > (["z"] : List String).length then
        (["x", "y"] : List String).dropLast.length +
          (["z"] : List String).length
      else (["x", "y"] : List String).length +
        (["z"] : List String).dropLast.length) <
      (["x", "y"] : List String).length + (["z"] : List String).length ∧
    ∃ r, truncate_seq_pair ["x", "y"] ["z"] 1 = some r) :=
  ⟨by decide, by decide,
    claim_c9_termination ["x", "y"] ["z"] 1 (by decide) (by decide)⟩

/-- C5: for a duplicate-free label list the map
`{label : i for i, label in enumerate(label_list)}` is a bijection from the
label strings onto the indices `0..len-1` (characterised by positional
lookup, total on members, injective, surjective onto the index range), and on
the list `["0", "1"]` the raw label `"1"` receives id 1. -/
theorem claim_c5_label_map (ll : List String) (h : ll.Nodup) :
    (∀ s i, label_map ll s = some i ↔ ll.get? i = some s) ∧
    (∀ s, s ∈ ll → ∃ i, i < ll.length ∧ label_map ll s = some i) ∧
    (∀ s t i, label_map ll s = some i → label_map ll t = some i → s = t) ∧
    (∀ i, i < ll.length → ∃ s, s ∈ ll ∧ label_map ll s = some i) ∧
    label_map ["0", "1"] "1" = some 1 := by
  refine ⟨fun s i => label_map_some_iff h s i, ?_, ?_, ?_, by decide⟩
  · intro s hs
    obtain ⟨i, hi⟩ := label_map_isSome_of_mem hs
    refine ⟨i, ?_, hi⟩
    have hget := (label_map_some_iff h s i).mp hi
    obtain ⟨hlt, _⟩ := List.get?_eq_some.mp hget
    exact hlt
  · intro s t i hs ht
    have h1 := (label_map_some_iff h s i).mp hs
    have h2 := (label_map_some_iff h t i).mp ht
    rw [h1] at h2
    exact Option.some.inj h2
  · intro i hi
    refine ⟨ll.get ⟨i, hi⟩, List.get_mem ll i hi, ?_⟩
    exact (label_map_some_iff h _ i).mpr (List.get?_eq_get hi)

/-- Witness for C5: the label list `["0", "1"]` of the binary tasks. -/
theorem claim_c5_witness :
    (["0", "1"] : List String).Nodup ∧ label_map ["0", "1"] "1" = some 1 :=
  ⟨by decide, (claim_c5_label_map ["0", "1"] (by decide)).2.2.2.2⟩

/-- C1: for every list of examples whose labels all occur in `label_list`,
and every `max_seq_length ≥ 2` (`≥ 3` when an example of
`convert_examples_to_features` has a truthy `text_b`), both converters
succeed — the length assertions never fail — and every field of every emitted
record has length exactly `max_seq_length`.  The relevance converter
additionally requires each example to carry a `text_b` at all, since it
tokenizes it unconditionally. -/
theorem claim_c1_feature_lengths (tokenize : String → List String)
    (tid : String → Nat) (examples : List InputExample) (ll : List String)
    (max_seq_length : Nat)
    (hlab : ∀ ex ∈ examples, ∃ lab, ex.label = some lab ∧ lab ∈ ll)
    (h2 : 2 ≤ max_seq_length)
    (h3 : ∀ ex ∈ examples, textBTruthy ex = true → 3 ≤ max_seq_length) :
    (∃ fs, convert_examples_to_features tokenize tid examples ll
        max_seq_length = some fs ∧
      ∀ f ∈ fs, f.input_ids.length = max_seq_length ∧
        f.input_mask.length = max_seq_length ∧
        f.segment_ids.length = max_seq_length) ∧
    ((∀ ex ∈ examples, ex.text_b ≠ none) →
      ∃ fs, convert_examples_to_relevance_features tokenize tid examples ll
          max_seq_length = some fs ∧
        ∀ f ∈ fs, f.query_ids.length = max_seq_length ∧
          f.psg_ids.length = max_seq_length ∧
          f.query_mask.length = max_seq_length ∧
          f.psg_mask.length = max_seq_length ∧
          f.query_segment_ids.length = max_seq_length ∧
          f.psg_segment_ids.length = max_seq_length) := by
  constructor
  · obtain ⟨fs, hfs, hmem⟩ := @convert_examples_to_features_success
      tokenize tid ll max_seq_length examples
      (fun ex hex => by
        obtain ⟨lab, hl, hmem'⟩ := hlab ex hex
        obtain ⟨lid, hlid⟩ := label_map_isSome_of_mem hmem'
        exact convert_example_success h2 (h3 ex hex) hl hlid)
    refine ⟨fs, hfs, fun f hf => ?_⟩
    obtain ⟨ex, hex, hsome⟩ := hmem f hf
    exact convert_example_some_lengths hsome
  · intro htb
    obtain ⟨fs, hfs, hmem⟩ := @convert_examples_to_relevance_features_success
      tokenize tid ll max_seq_length examples
      (fun ex hex => by
        obtain ⟨lab, hl, hmem'⟩ := hlab ex hex
        obtain ⟨lid, hlid⟩ := label_map_isSome_of_mem hmem'
        cases hB : ex.text_b with
        | none => exact absurd hB (htb ex hex)
        | some tb => exact convert_relevance_example_success h2 hB hl hlid)
    refine ⟨fs, hfs, fun f hf => ?_⟩
    obtain ⟨ex, hex, hsome⟩ := hmem f hf
    exact convert_relevance_example_some_lengths hsome

/-- Witness for C1: one two-character pair example at `max_seq_length = 8`. -/
theorem claim_c1_witness :
    (∃ fs, convert_examples_to_features charTokenize charTokenId
        [⟨"t-1", "ab", some "cd", some "1"⟩] ["0", "1"] 8 = some fs ∧
      ∀ f ∈ fs, f.input_ids.length = 8 ∧ f.input_mask.length = 8 ∧
        f.segment_ids.length = 8) ∧
    (∃ fs, convert_examples_to_relevance_features charTokenize charTokenId
        [⟨"t-1", "ab", some "cd", some "1"⟩] ["0", "1"] 8 = some fs ∧
      ∀ f ∈ fs, f.query_ids.length = 8 ∧ f.psg_ids.length = 8 ∧
        f.query_mask.length = 8 ∧ f.psg_mask.length = 8 ∧
        f.query_segment_ids.length = 8 ∧ f.psg_segment_ids.length = 8) :=
  ⟨(claim_c1_feature_lengths charTokenize charTokenId
      [⟨"t-1", "ab", some "cd", some "1"⟩] ["0", "1"] 8
      (by
        intro ex hex
        rw [List.mem_singleton] at hex
        subst hex
        exact ⟨"1", rfl, by decide⟩)
      (by decide) (fun _ _ _ => by decide)).1,
   (claim_c1_feature_lengths charTokenize charTokenId
      [⟨"t-1", "ab", some "cd", some "1"⟩] ["0", "1"] 8
      (by
        intro ex hex
        rw [List.mem_singleton] at hex
        subst hex
        exact ⟨"1", rfl, by decide⟩)
      (by decide) (fun _ _ _ => by decide)).2
     (by
       intro ex hex
       rw [List.mem_singleton] at hex
       subst hex
       simp)⟩

/-- C10: every record emitted by `convert_examples_to_relevance_features` has
all-zero `query_segment_ids` and `psg_segment_ids`: the passage side is never
marked with segment id 1. -/
theorem claim_c10_segment_ids_zero
    (tokenize : String → List String) (tid : String → Nat)
    (examples : List InputExample) (ll : List String) (max_seq_length : Nat)
    (fs : List RelevanceFeatures)
    (h : convert_examples_to_relevance_features tokenize tid examples ll
      max_seq_length = some fs) :
    ∀ f ∈ fs, (∀ z ∈ f.query_segment_ids, z = 0) ∧
      (∀ z ∈ f.psg_segment_ids, z = 0) := by
  intro f hf
  obtain ⟨ex, hex, hsome⟩ := convert_examples_to_relevance_features_mem h hf
  obtain ⟨tb, lab, htb, hlab, hmap, ha, hb⟩ :=
    convert_relevance_example_some_inv hsome
  have heq := @convert_relevance_example_eq_some tokenize tid ll max_seq_length
    ex tb lab f.label_id htb hlab hmap _ _ rfl rfl ha hb
  rw [hsome] at heq
  injection heq with h1
  refine ⟨fun z hz => ?_, fun z hz => ?_⟩
  · have hq := congrArg RelevanceFeatures.query_segment_ids h1
    rw [hq] at hz
    rcases List.mem_append.mp hz with h' | h'
    · exact List.eq_of_mem_replicate h'
    · exact List.eq_of_mem_replicate h'
  · have hq := congrArg RelevanceFeatures.psg_segment_ids h1
    rw [hq] at hz
    rcases List.mem_append.mp hz with h' | h'
    · exact List.eq_of_mem_replicate h'
    · exact List.eq_of_mem_replicate h'

/-- Witness for C10: one concrete pair example at `max_seq_length = 8`. -/
theorem claim_c10_witness :
    (∀ z ∈ (⟨[5, 1, 1, 5, 0, 0, 0, 0], [5, 1, 1, 5, 0, 0, 0, 0],
        [1, 1, 1, 1, 0, 0, 0, 0], [1, 1, 1, 1, 0, 0, 0, 0],
        [0, 0, 0, 0, 0, 0, 0, 0], [0, 0, 0, 0, 0, 0, 0, 0], 1⟩ :
        RelevanceFeatures).query_segment_ids, z = 0) ∧
    (∀ z ∈ (⟨[5, 1, 1, 5, 0, 0, 0, 0], [5, 1, 1, 5, 0, 0, 0, 0],
        [1, 1, 1, 1, 0, 0, 0, 0], [1, 1, 1, 1, 0, 0, 0, 0],
        [0, 0, 0, 0, 0, 0, 0, 0], [0, 0, 0, 0, 0, 0, 0, 0], 1⟩ :
        RelevanceFeatures).psg_segment_ids, z = 0) :=
  claim_c10_segment_ids_zero charTokenize charTokenId
    [⟨"1", "ab", some "cd", some "1"⟩] ["0", "1"] 8
    [⟨[5, 1, 1, 5, 0, 0, 0, 0], [5, 1, 1, 5, 0, 0, 0, 0],
      [1, 1, 1, 1, 0, 0, 0, 0], [1, 1, 1, 1, 0, 0, 0, 0],
      [0, 0, 0, 0, 0, 0, 0, 0], [0, 0, 0, 0, 0, 0, 0, 0], 1⟩] rfl
    ⟨[5, 1, 1, 5, 0, 0, 0, 0], [5, 1, 1, 5, 0, 0, 0, 0],
      [1, 1, 1, 1, 0, 0, 0, 0], [1, 1, 1, 1, 0, 0, 0, 0],
      [0, 0, 0, 0, 0, 0, 0, 0], [0, 0, 0, 0, 0, 0, 0, 0], 1⟩ (by simp)

/-- Counterexample to C3: at `max_seq_length = 8` with two eight-character
texts, `convert_examples_to_relevance_features` keeps 6 content tokens on
each side (12 combined), exceeding the `max_seq_length - 3 = 5` budget, and
still emits the record. -/
theorem claim_c3_counterexample :
    convert_examples_to_relevance_features charTokenize charTokenId
        [⟨"t-1", "abcdefgh", some "ijklmnop", some "1"⟩] ["0", "1"] 8 =
      some [⟨[5, 1, 1, 1, 1, 1, 1, 5], [5, 1, 1, 1, 1, 1, 1, 5],
        [1, 1, 1, 1, 1, 1, 1, 1], [1, 1, 1, 1, 1, 1, 1, 1],
        [0, 0, 0, 0, 0, 0, 0, 0], [0, 0, 0, 0, 0, 0, 0, 0], 1⟩] ∧
    (truncate_single (charTokenize "abcdefgh") 8).length +
        (truncate_single (charTokenize "ijklmnop") 8).length = 12 ∧
    ¬ ((truncate_single (charTokenize "abcdefgh") 8).length +
        (truncate_single (charTokenize "ijklmnop") 8).length ≤ 8 - 3) :=
  ⟨rfl, by decide, by decide⟩

/-- C3 amended: every pair conversion performed by the program
(`convert_examples_to_relevance_features`) truncates the two sides
independently, keeping at most `max_seq_length - 2` content tokens per side
and hence at most `2 * (max_seq_length - 2)` combined — not at most
`max_seq_length - 3`. -/
theorem claim_c3_amended_budget
    (tokenize : String → List String) (tid : String → Nat)
    (examples : List InputExample) (ll : List String) (max_seq_length : Nat)
    (fs : List RelevanceFeatures)
    (h : convert_examples_to_relevance_features tokenize tid examples ll
      max_seq_length = some fs) :
    ∀ f ∈ fs, ∃ ex ∈ examples, ∃ tb, ex.text_b = some tb ∧
      (truncate_single (tokenize ex.text_a) max_seq_length).length ≤
        max_seq_length - 2 ∧
      (truncate_single (tokenize tb) max_seq_length).length ≤
        max_seq_length - 2 ∧
      (truncate_single (tokenize ex.text_a) max_seq_length).length +
        (truncate_single (tokenize tb) max_seq_length).length ≤
        2 * (max_seq_length - 2) := by
  intro f hf
  obtain ⟨ex, hex, hsome⟩ := convert_examples_to_relevance_features_mem h hf
  obtain ⟨tb, lab, htb, hlab, hmap, ha, hb⟩ :=
    convert_relevance_example_some_inv hsome
  exact ⟨ex, hex, tb, htb, by omega, by omega, by omega⟩

/-- Witness for the amended C3 at the concrete counterexample input. -/
theorem claim_c3_amended_witness :
    ∃ ex ∈ [(⟨"t-1", "abcdefgh", some "ijklmnop", some "1"⟩ :
        InputExample)],
      ∃ tb, ex.text_b = some tb ∧
        (truncate_single (charTokenize ex.text_a) 8).length ≤ 8 - 2 ∧
        (truncate_single (charTokenize tb) 8).length ≤ 8 - 2 ∧
        (truncate_single (charTokenize ex.text_a) 8).length +
          (truncate_single (charTokenize tb) 8).length ≤ 2 * (8 - 2) :=
  claim_c3_amended_budget charTokenize charTokenId
    [⟨"t-1", "abcdefgh", some "ijklmnop", some "1"⟩] ["0", "1"] 8
    [⟨[5, 1, 1, 1, 1, 1, 1, 5], [5, 1, 1, 1, 1, 1, 1, 5],
      [1, 1, 1, 1, 1, 1, 1, 1], [1, 1, 1, 1, 1, 1, 1, 1],
      [0, 0, 0, 0, 0, 0, 0, 0], [0, 0, 0, 0, 0, 0, 0, 0], 1⟩] rfl
    ⟨[5, 1, 1, 1, 1, 1, 1, 5], [5, 1, 1, 1, 1, 1, 1, 5],
      [1, 1, 1, 1, 1, 1, 1, 1], [1, 1, 1, 1, 1, 1, 1, 1],
      [0, 0, 0, 0, 0, 0, 0, 0], [0, 0, 0, 0, 0, 0, 0, 0], 1⟩ (by simp)

/-- C4: with no (truthy) `text_b`, `convert_examples_to_features` keeps at
most `max_seq_length - 2` content tokens of `tokens_a`;
`convert_examples_to_relevance_features` keeps at most `max_seq_length - 2`
content tokens on each side; and the query-side fields of an emitted
relevance record depend only on `text_a` — the kept tokens of one side do
not depend on the length of the other side. -/
theorem claim_c4_independent_sides
    (tokenize : String → List String) (tid : String → Nat) (ll : List String)
    (max_seq_length : Nat) :
    (∀ ex f, textBTruthy ex = false →
      convert_example tokenize tid ll max_seq_length ex = some f →
      (truncate_single (tokenize ex.text_a) max_seq_length).length ≤
        max_seq_length - 2) ∧
    (∀ ex f,
      convert_relevance_example tokenize tid ll max_seq_length ex = some f →
      (truncate_single (tokenize ex.text_a) max_seq_length).length ≤
        max_seq_length - 2 ∧
      ∀ tb, ex.text_b = some tb →
        (truncate_single (tokenize tb) max_seq_length).length ≤
          max_seq_length - 2) ∧
    (∀ ex ex' f f', ex.text_a = ex'.text_a →
      convert_relevance_example tokenize tid ll max_seq_length ex = some f →
      convert_relevance_example tokenize tid ll max_seq_length ex' = some f' →
      f.query_ids = f'.query_ids ∧ f.query_mask = f'.query_mask ∧
      f.query_segment_ids = f'.query_segment_ids) := by
  refine ⟨?_, ?_, ?_⟩
  · intro ex f hbt hsome
    have := convert_example_single_bound hbt hsome
    omega
  · intro ex f hsome
    obtain ⟨tb, lab, htb, hlab, hmap, ha, hb⟩ :=
      convert_relevance_example_some_inv hsome
    refine ⟨by omega, ?_⟩
    intro tb' htb'
    rw [htb] at htb'
    have h2 := Option.some.inj htb'
    rw [← h2]
    omega
  · intro ex ex' f f' hta h1 h2
    obtain ⟨tb, lab, htb, hlab, hmap, ha, hb⟩ :=
      convert_relevance_example_some_inv h1
    obtain ⟨tb', lab', htb', hlab', hmap', ha', hb'⟩ :=
      convert_relevance_example_some_inv h2
    have e1 := @convert_relevance_example_eq_some tokenize tid ll
      max_seq_length ex tb lab f.label_id htb hlab hmap _ _ rfl rfl ha hb
    have e2 := @convert_relevance_example_eq_some tokenize tid ll
      max_seq_length ex' tb' lab' f'.label_id htb' hlab' hmap' _ _ rfl rfl
      ha' hb'
    rw [h1] at e1
    rw [h2] at e2
    injection e1 with e1'
    injection e2 with e2'
    refine ⟨?_, ?_, ?_⟩
    · rw [congrArg RelevanceFeatures.query_ids e1',
        congrArg RelevanceFeatures.query_ids e2', hta]
    · rw [congrArg RelevanceFeatures.query_mask e1',
        congrArg RelevanceFeatures.query_mask e2', hta]
    · rw [congrArg RelevanceFeatures.query_segment_ids e1',
        congrArg RelevanceFeatures.query_segment_ids e2', hta]

/-- Witness for C4: two pair examples sharing `text_a = "ab"` but with
different `text_b`, plus a single-sequence example, at `max_seq_length = 8`. -/
theorem claim_c4_witness :
    ((truncate_single (charTokenize "ab") 8).length ≤ 8 - 2) ∧
    ((truncate_single (charTokenize "cd") 8).length ≤ 8 - 2) ∧
    ((⟨[5, 1, 1, 5, 0, 0, 0, 0], [5, 1, 1, 5, 0, 0, 0, 0],
        [1, 1, 1, 1, 0, 0, 0, 0], [1, 1, 1, 1, 0, 0, 0, 0],
        [0, 0, 0, 0, 0, 0, 0, 0], [0, 0, 0, 0, 0, 0, 0, 0], 1⟩ :
        RelevanceFeatures).query_ids =
      (⟨[5, 1, 1, 5, 0, 0, 0, 0], [5, 1, 1, 1, 5, 0, 0, 0],
        [1, 1, 1, 1, 0, 0, 0, 0], [1, 1, 1, 1, 1, 0, 0, 0],
        [0, 0, 0, 0, 0, 0, 0, 0], [0, 0, 0, 0, 0, 0, 0, 0], 0⟩ :
        RelevanceFeatures).query_ids ∧
      (⟨[5, 1, 1, 5, 0, 0, 0, 0], [5, 1, 1, 5, 0, 0, 0, 0],
        [1, 1, 1, 1, 0, 0, 0, 0], [1, 1, 1, 1, 0, 0, 0, 0],
        [0, 0, 0, 0, 0, 0, 0, 0], [0, 0, 0, 0, 0, 0, 0, 0], 1⟩ :
        RelevanceFeatures).query_mask =
      (⟨[5, 1, 1, 5, 0, 0, 0, 0], [5, 1, 1, 1, 5, 0, 0, 0],
        [1, 1, 1, 1, 0, 0, 0, 0], [1, 1, 1, 1, 1, 0, 0, 0],
        [0, 0, 0, 0, 0, 0, 0, 0], [0, 0, 0, 0, 0, 0, 0, 0], 0⟩ :
        RelevanceFeatures).query_mask ∧
      (⟨[5, 1, 1, 5, 0, 0, 0, 0], [5, 1, 1, 5, 0, 0, 0, 0],
        [1, 1, 1, 1, 0, 0, 0, 0], [1, 1, 1, 1, 0, 0, 0, 0],
        [0, 0, 0, 0, 0, 0, 0, 0], [0, 0, 0, 0, 0, 0, 0, 0], 1⟩ :
        RelevanceFeatures).query_segment_ids =
      (⟨[5, 1, 1, 5, 0, 0, 0, 0], [5, 1, 1, 1, 5, 0, 0, 0],
        [1, 1, 1, 1, 0, 0, 0, 0], [1, 1, 1, 1, 1, 0, 0, 0],
        [0, 0, 0, 0, 0, 0, 0, 0], [0, 0, 0, 0, 0, 0, 0, 0], 0⟩ :
        RelevanceFeatures).query_segment_ids) :=
  ⟨(claim_c4_independent_sides charTokenize charTokenId ["0", "1"] 8).1
      ⟨"3", "ab", none, some "0"⟩
      ⟨[5, 1, 1, 5, 0, 0, 0, 0], [1, 1, 1, 1, 0, 0, 0, 0],
        [0, 0, 0, 0, 0, 0, 0, 0], 0⟩ rfl rfl,
   ((claim_c4_independent_sides charTokenize charTokenId ["0", "1"] 8).2.1
      ⟨"1", "ab", some "cd", some "1"⟩
      ⟨[5, 1, 1, 5, 0, 0, 0, 0], [5, 1, 1, 5, 0, 0, 0, 0],
        [1, 1, 1, 1, 0, 0, 0, 0], [1, 1, 1, 1, 0, 0, 0, 0],
        [0, 0, 0, 0, 0, 0, 0, 0], [0, 0, 0, 0, 0, 0, 0, 0], 1⟩ rfl).2 "cd" rfl,
   (claim_c4_independent_sides charTokenize charTokenId ["0", "1"] 8).2.2
      ⟨"1", "ab", some "cd", some "1"⟩ ⟨"2", "ab", some "xyz", some "0"⟩
      ⟨[5, 1, 1, 5, 0, 0, 0, 0], [5, 1, 1, 5, 0, 0, 0, 0],
        [1, 1, 1, 1, 0, 0, 0, 0], [1, 1, 1, 1, 0, 0, 0, 0],
        [0, 0, 0, 0, 0, 0, 0, 0], [0, 0, 0, 0, 0, 0, 0, 0], 1⟩
      ⟨[5, 1, 1, 5, 0, 0, 0, 0], [5, 1, 1, 1, 5, 0, 0, 0],
        [1, 1, 1, 1, 0, 0, 0, 0], [1, 1, 1, 1, 1, 0, 0, 0],
        [0, 0, 0, 0, 0, 0, 0, 0], [0, 0, 0, 0, 0, 0, 0, 0], 0⟩ rfl rfl rfl⟩


/-- `warmup_linear` (run_FullRecall.py:414-417), modelled over exact
rationals in place of Python floats. -/
def warmup_linear (x : ℚ) (warmup : ℚ) : ℚ :=
  if x < warmup then x / warmup else 1 - x

/-- C8: `warmup_linear x warmup` equals `x / warmup` for `x < warmup` and
`1 - x` otherwise; for `0 < warmup < 1` it is strictly increasing on
`[0, warmup)`, rising from 0 while staying below 1, and strictly decreasing
on `[warmup, 1]`, reaching 0 at `x = 1`. -/
theorem claim_c8_schedule (w : ℚ) (hw0 : 0 < w) (hw1 : w < 1) :
    (∀ x, x < w → warmup_linear x w = x / w) ∧
    (∀ x, ¬ x < w → warmup_linear x w = 1 - x) ∧
    (∀ x1 x2, 0 ≤ x1 → x1 < x2 → x2 < w →
      warmup_linear x1 w < warmup_linear x2 w) ∧
    warmup_linear 0 w = 0 ∧
    (∀ x, 0 ≤ x → x < w → warmup_linear x w < 1) ∧
    (∀ x1 x2, w ≤ x1 → x1 < x2 → x2 ≤ 1 →
      warmup_linear x2 w < warmup_linear x1 w) ∧
    warmup_linear 1 w = 0 := by
  refine ⟨?_, ?_, ?_, ?_, ?_, ?_, ?_⟩
  · intro x hx
    rw [warmup_linear, if_pos hx]
  · intro x hx
    rw [warmup_linear, if_neg hx]
  · intro x1 x2 h0 h12 h2w
    simp only [warmup_linear]
    rw [if_pos (lt_trans h12 h2w), if_pos h2w]
    have hmul := mul_lt_mul_of_pos_right h12 (inv_pos.mpr hw0)
    simpa [div_eq_mul_inv] using hmul
  · rw [warmup_linear, if_pos hw0, zero_div]
  · intro x h0 hxw
    rw [warmup_linear, if_pos hxw]
    exact (div_lt_one hw0).mpr hxw
  · intro x1 x2 hwx1 h12 hx21
    simp only [warmup_linear]
    rw [if_neg (by linarith), if_neg (by linarith)]
    linarith
  · rw [warmup_linear, if_neg (by linarith)]
    norm_num

/-- Witness for C8 at `warmup = 1/2`. -/
theorem claim_c8_witness :
    warmup_linear (1 / 4) (1 / 2) < warmup_linear (3 / 8) (1 / 2) ∧
    warmup_linear 1 (1 / 2) = 0 :=
  ⟨(claim_c8_schedule (1 / 2) (by norm_num) (by norm_num)).2.2.1 (1 / 4)
     (3 / 8) (by norm_num) (by norm_num) (by norm_num),
   (claim_c8_schedule (1 / 2) (by norm_num) (by norm_num)).2.2.2.2.2.2⟩

/-- Python `str.lower()` (ASCII case folding), applied to `args.task_name` in
`main` (run_FullRecall.py:554). -/
def pyLower (s : String) : String := String.mk (s.data.map Char.toLower)

/-- The known task names of `main` (run_FullRecall.py:509-514). -/
def processors_keys : List String := ["cola", "mnli", "mrpc", "textqna"]

/-- The command-line arguments that `main` validates. -/
structure Args where
  gradient_accumulation_steps : Int
  do_train : Bool
  do_eval : Bool
  task_name : String
  output_dir : String

/-- The fail-fast argument validation of `main` (run_FullRecall.py:535-557),
in source order; `output_dir_exists_nonempty` models
`os.path.exists(args.output_dir) and os.listdir(args.output_dir)`.
`Except.error` models an uncaught `ValueError` raised before any training or
evaluation work starts. -/
def main_validate (args : Args) (output_dir_exists_nonempty : Bool) :
    Except String Unit :=
  if args.gradient_accumulation_steps < 1 then
    Except.error ("Invalid gradient_accumulation_steps parameter: " ++
      toString args.gradient_accumulation_steps ++ ", should be >= 1")
  else if !args.do_train && !args.do_eval then
    Except.error "At least one of `do_train` or `do_eval` must be True."
  else if output_dir_exists_nonempty && args.do_train then
    Except.error ("Output directory (" ++ args.output_dir ++
      ") already exists and is not empty.")
  else if pyLower args.task_name ∉ processors_keys then
    Except.error ("Task not found: " ++ pyLower args.task_name)
  else
    Except.ok ()

/-- C6: `main` raises an error before any training or evaluation work exactly
when `gradient_accumulation_steps < 1`, or neither `do_train` nor `do_eval`
is requested, or `do_train` is requested with a non-empty existing output
directory, or the lowercased task name is unknown; each error message
identifies the offending argument. -/
theorem claim_c6_fail_fast (args : Args) (dirne : Bool) :
    ((args.gradient_accumulation_steps < 1 ∨
      (args.do_train = false ∧ args.do_eval = false) ∨
      (dirne = true ∧ args.do_train = true) ∨
      pyLower args.task_name ∉ processors_keys) ↔
      ∃ msg, main_validate args dirne = Except.error msg) ∧
    (args.gradient_accumulation_steps < 1 →
      main_validate args dirne = Except.error
        ("Invalid gradient_accumulation_steps parameter: " ++
          toString args.gradient_accumulation_steps ++ ", should be >= 1")) ∧
    (1 ≤ args.gradient_accumulation_steps → args.do_train = false →
      args.do_eval = false →
      main_validate args dirne = Except.error
        "At least one of `do_train` or `do_eval` must be True.") ∧
    (1 ≤ args.gradient_accumulation_steps → dirne = true →
      args.do_train = true →
      main_validate args dirne = Except.error
        ("Output directory (" ++ args.output_dir ++
          ") already exists and is not empty.")) ∧
    (1 ≤ args.gradient_accumulation_steps →
      (args.do_train = true ∨ args.do_eval = true) →
      ¬ (dirne = true ∧ args.do_train = true) →
      pyLower args.task_name ∉ processors_keys →
      main_validate args dirne = Except.error
        ("Task not found: " ++ pyLower args.task_name)) := by
  refine ⟨?_, ?_, ?_, ?_, ?_⟩
  · have hexh : ∀ v : Except String Unit,
        (∃ msg, v = Except.error msg) ↔ v ≠ Except.ok () := by
      intro v
      cases v with
      | error e => simp
      | ok u => cases u; simp
    rw [hexh]
    unfold main_validate
    by_cases h1 : args.gradient_accumulation_steps < 1 <;>
      by_cases h2 : args.do_train <;> by_cases h3 : args.do_eval <;>
      by_cases h4 : dirne <;>
      by_cases h5 : pyLower args.task_name ∈ processors_keys <;>
      simp_all <;> split <;> simp
  · intro hg
    rw [main_validate, if_pos hg]
  · intro hg ht he
    rw [main_validate, if_neg (by omega), if_pos (by simp [ht, he])]
  · intro hg hd ht
    rw [main_validate, if_neg (by omega), if_neg (by simp [ht]),
      if_pos (by simp [hd, ht])]
  · intro hg hte hnd hts
    rw [main_validate, if_neg (by omega), if_neg ?hc1, if_neg ?hc2,
      if_pos hts]
    case hc1 =>
      rcases hte with h | h <;> simp [h]
    case hc2 =>
      intro hc
      rw [Bool.and_eq_true] at hc
      exact hnd ⟨hc.1, hc.2⟩

/-- Witness for C6: four concrete argument vectors, one per failing check. -/
theorem claim_c6_witness :
    (main_validate ⟨0, true, false, "mrpc", "out"⟩ false = Except.error
      "Invalid gradient_accumulation_steps parameter: 0, should be >= 1") ∧
    (main_validate ⟨1, false, false, "mrpc", "out"⟩ false = Except.error
      "At least one of `do_train` or `do_eval` must be True.") ∧
    (main_validate ⟨1, true, true, "mrpc", "out"⟩ true = Except.error
      "Output directory (out) already exists and is not empty.") ∧
    (main_validate ⟨1, false, true, "foo", "out"⟩ false = Except.error
      "Task not found: foo") :=
  ⟨(claim_c6_fail_fast ⟨0, true, false, "mrpc", "out"⟩ false).2.1 (by decide),
   (claim_c6_fail_fast ⟨1, false, false, "mrpc", "out"⟩ false).2.2.1
     (by decide) rfl rfl,
   (claim_c6_fail_fast ⟨1, true, true, "mrpc", "out"⟩ true).2.2.2.1
     (by decide) rfl rfl,
   (claim_c6_fail_fast ⟨1, false, true, "foo", "out"⟩ false).2.2.2.2
     (by decide) (Or.inr rfl) (by simp) (by decide)⟩


/-- `MrpcProcessor._create_examples` (run_FullRecall.py:138-150), with the
enumeration index made explicit: row 0 is skipped, every later row yields an
example from columns 3 (`text_a`), 4 (`text_b`) and 0 (`label`); `none`
models the `IndexError` raised on a too-short row. -/
def mrpcRows (set_type : String) : Nat → List (List String) →
    Option (List InputExample)
  | _, [] => some []
  | i, line :: rest =>
    if i = 0 then mrpcRows set_type (i + 1) rest
    else do
      let text_a ← line.get? 3
      let text_b ← line.get? 4
      let lab ← line.get? 0
      let tail ← mrpcRows set_type (i + 1) rest
      pure (⟨set_type ++ "-" ++ toString i, text_a, some text_b, some lab⟩ ::
        tail)

def mrpc_create_examples (lines : List (List String)) (set_type : String) :
    Option (List InputExample) := mrpcRows set_type 0 lines

/-- `MnliProcessor._create_examples` (run_FullRecall.py:172-184): row 0 is
skipped, every later row yields an example with guid from column 0, `text_a`
from column 8, `text_b` from column 9 and the label from the last column. -/
def mnliRows (set_type : String) : Nat → List (List String) →
    Option (List InputExample)
  | _, [] => some []
  | i, line :: rest =>
    if i = 0 then mnliRows set_type (i + 1) rest
    else do
      let col0 ← line.get? 0
      let text_a ← line.get? 8
      let text_b ← line.get? 9
      let lab ← line.getLast?
      let tail ← mnliRows set_type (i + 1) rest
      pure (⟨set_type ++ "-" ++ col0, text_a, some text_b, some lab⟩ :: tail)

def mnli_create_examples (lines : List (List String)) (set_type : String) :
    Option (List InputExample) := mnliRows set_type 0 lines

/-- `ColaProcessor._create_examples` (run_FullRecall.py:206-215): every row,
including the first, yields an example from columns 3 (`text_a`) and 1
(`label`), with no `text_b`. -/
def colaRows (set_type : String) : Nat → List (List String) →
    Option (List InputExample)
  | _, [] => some []
  | i, line :: rest => do
      let text_a ← line.get? 3
      let lab ← line.get? 1
      let tail ← colaRows set_type (i + 1) rest
      pure (⟨set_type ++ "-" ++ toString i, text_a, none, some lab⟩ :: tail)

def cola_create_examples (lines : List (List String)) (set_type : String) :
    Option (List InputExample) := colaRows set_type 0 lines

/-- `TextQnA._create_examples` (run_FullRecall.py:237-246): every row,
including the first, yields an example from columns 0 (`text_a`), 1
(`text_b`) and 2 (`label`). -/
def textqnaRows (set_type : String) : Nat → List (List String) →
    Option (List InputExample)
  | _, [] => some []
  | i, line :: rest => do
      let text_a ← line.get? 0
      let text_b ← line.get? 1
      let lab ← line.get? 2
      let tail ← textqnaRows set_type (i + 1) rest
      pure (⟨set_type ++ "-" ++ toString i, text_a, some text_b, some lab⟩ ::
        tail)

def textqna_create_examples (lines : List (List String)) (set_type : String) :
    Option (List InputExample) := textqnaRows set_type 0 lines

theorem mrpcRows_length {st : String} (lines : List (List String)) (i : Nat)
    (hi : i ≠ 0) (h : ∀ l ∈ lines, 5 ≤ l.length) :
    ∃ es, mrpcRows st i lines = some es ∧ es.length = lines.length := by
  induction lines generalizing i with
  | nil => exact ⟨[], rfl, rfl⟩
  | cons line rest ih =>
    obtain ⟨es, hes, hlen⟩ := ih (i + 1) (by omega)
      (fun l hl => h l (List.mem_cons_of_mem _ hl))
    have h5 := h line (List.mem_cons_self _ _)
    obtain ⟨a3, ha3⟩ : ∃ x, getElem? line 3 = some x :=
      ⟨_, List.getElem?_eq_getElem (by omega)⟩
    obtain ⟨a4, ha4⟩ : ∃ x, getElem? line 4 = some x :=
      ⟨_, List.getElem?_eq_getElem (by omega)⟩
    obtain ⟨a0, ha0⟩ : ∃ x, getElem? line 0 = some x :=
      ⟨_, List.getElem?_eq_getElem (by omega)⟩
    refine ⟨⟨st ++ "-" ++ toString i, a3, some a4, some a0⟩ :: es, ?_,
      by simp [hlen]⟩
    rw [mrpcRows, if_neg hi]
    simp [ha3, ha4, ha0, hes]

theorem mnliRows_length {st : String} (lines : List (List String)) (i : Nat)
    (hi : i ≠ 0) (h : ∀ l ∈ lines, 10 ≤ l.length) :
    ∃ es, mnliRows st i lines = some es ∧ es.length = lines.length := by
  induction lines generalizing i with
  | nil => exact ⟨[], rfl, rfl⟩
  | cons line rest ih =>
    obtain ⟨es, hes, hlen⟩ := ih (i + 1) (by omega)
      (fun l hl => h l (List.mem_cons_of_mem _ hl))
    have h10 := h line (List.mem_cons_self _ _)
    obtain ⟨a0, ha0⟩ : ∃ x, getElem? line 0 = some x :=
      ⟨_, List.getElem?_eq_getElem (by omega)⟩
    obtain ⟨a8, ha8⟩ : ∃ x, getElem? line 8 = some x :=
      ⟨_, List.getElem?_eq_getElem (by omega)⟩
    obtain ⟨a9, ha9⟩ : ∃ x, getElem? line 9 = some x :=
      ⟨_, List.getElem?_eq_getElem (by omega)⟩
    obtain ⟨al, hal⟩ : ∃ x, line.getLast? = some x := by
      rw [Option.isSome_iff_exists.symm, List.getLast?_isSome]
      intro hnil
      rw [hnil] at h10
      simp at h10
    refine ⟨⟨st ++ "-" ++ a0, a8, some a9, some al⟩ :: es, ?_, by simp [hlen]⟩
    rw [mnliRows, if_neg hi]
    simp [ha0, ha8, ha9, hal, hes]

theorem colaRows_length {st : String} (lines : List (List String)) (i : Nat)
    (h : ∀ l ∈ lines, 4 ≤ l.length) :
    ∃ es, colaRows st i lines = some es ∧ es.length = lines.length := by
  induction lines generalizing i with
  | nil => exact ⟨[], rfl, rfl⟩
  | cons line rest ih =>
    obtain ⟨es, hes, hlen⟩ := ih (i + 1)
      (fun l hl => h l (List.mem_cons_of_mem _ hl))
    have h4 := h line (List.mem_cons_self _ _)
    obtain ⟨a3, ha3⟩ : ∃ x, getElem? line 3 = some x :=
      ⟨_, List.getElem?_eq_getElem (by omega)⟩
    obtain ⟨a1, ha1⟩ : ∃ x, getElem? line 1 = some x :=
      ⟨_, List.getElem?_eq_getElem (by omega)⟩
    refine ⟨⟨st ++ "-" ++ toString i, a3, none, some a1⟩ :: es, ?_,
      by simp [hlen]⟩
    rw [colaRows]
    simp [ha3, ha1, hes]

theorem textqnaRows_length {st : String} (lines : List (List String))
    (i : Nat) (h : ∀ l ∈ lines, 3 ≤ l.length) :
    ∃ es, textqnaRows st i lines = some es ∧ es.length = lines.length := by
  induction lines generalizing i with
  | nil => exact ⟨[], rfl, rfl⟩
  | cons line rest ih =>
    obtain ⟨es, hes, hlen⟩ := ih (i + 1)
      (fun l hl => h l (List.mem_cons_of_mem _ hl))
    have h3 := h line (List.mem_cons_self _ _)
    obtain ⟨a0, ha0⟩ : ∃ x, getElem? line 0 = some x :=
      ⟨_, List.getElem?_eq_getElem (by omega)⟩
    obtain ⟨a1, ha1⟩ : ∃ x, getElem? line 1 = some x :=
      ⟨_, List.getElem?_eq_getElem (by omega)⟩
    obtain ⟨a2, ha2⟩ : ∃ x, getElem? line 2 = some x :=
      ⟨_, List.getElem?_eq_getElem (by omega)⟩
    refine ⟨⟨st ++ "-" ++ toString i, a0, some a1, some a2⟩ :: es, ?_,
      by simp [hlen]⟩
    rw [textqnaRows]
    simp [ha0, ha1, ha2, hes]

/-- C7: on rows with enough columns, `MrpcProcessor._create_examples` and
`MnliProcessor._create_examples` skip the first (header) row and produce
`len(lines) - 1` examples, while `ColaProcessor._create_examples` and
`TextQnA._create_examples` produce one example per row including the first,
`len(lines)` in total. -/
theorem claim_c7_row_counts (lines : List (List String)) (st : String) :
    ((∀ l ∈ lines.drop 1, 5 ≤ l.length) →
      ∃ es, mrpc_create_examples lines st = some es ∧
        es.length = lines.length - 1) ∧
    ((∀ l ∈ lines.drop 1, 10 ≤ l.length) →
      ∃ es, mnli_create_examples lines st = some es ∧
        es.length = lines.length - 1) ∧
    ((∀ l ∈ lines, 4 ≤ l.length) →
      ∃ es, cola_create_examples lines st = some es ∧
        es.length = lines.length) ∧
    ((∀ l ∈ lines, 3 ≤ l.length) →
      ∃ es, textqna_create_examples lines st = some es ∧
        es.length = lines.length) := by
  refine ⟨?_, ?_, ?_, ?_⟩
  · intro h
    cases lines with
    | nil => exact ⟨[], rfl, rfl⟩
    | cons hd tl =>
      obtain ⟨es, hes, hlen⟩ := mrpcRows_length tl 1 (by omega)
        (by simpa using h)
      refine ⟨es, ?_, by simp [hlen]⟩
      rw [mrpc_create_examples, mrpcRows, if_pos rfl]
      exact hes
  · intro h
    cases lines with
    | nil => exact ⟨[], rfl, rfl⟩
    | cons hd tl =>
      obtain ⟨es, hes, hlen⟩ := mnliRows_length tl 1 (by omega)
        (by simpa using h)
      refine ⟨es, ?_, by simp [hlen]⟩
      rw [mnli_create_examples, mnliRows, if_pos rfl]
      exact hes
  · intro h
    exact colaRows_length lines 0 h
  · intro h
    exact textqnaRows_length lines 0 h

/-- Witness for C7: a two-row table whose rows all have ten columns. -/
theorem claim_c7_witness :
    (∃ es, mrpc_create_examples
        [["c0", "c1", "c2", "c3", "c4", "c5", "c6", "c7", "c8", "c9"],
         ["d0", "d1", "d2", "d3", "d4", "d5", "d6", "d7", "d8", "d9"]] "t" =
        some es ∧ es.length = 1) ∧
    (∃ es, mnli_create_examples
        [["c0", "c1", "c2", "c3", "c4", "c5", "c6", "c7", "c8", "c9"],
         ["d0", "d1", "d2", "d3", "d4", "d5", "d6", "d7", "d8", "d9"]] "t" =
        some es ∧ es.length = 1) ∧
    (∃ es, cola_create_examples
        [["c0", "c1", "c2", "c3", "c4", "c5", "c6", "c7", "c8", "c9"],
         ["d0", "d1", "d2", "d3", "d4", "d5", "d6", "d7", "d8", "d9"]] "t" =
        some es ∧ es.length = 2) ∧
    (∃ es, textqna_create_examples
        [["c0", "c1", "c2", "c3", "c4", "c5", "c6", "c7", "c8", "c9"],
         ["d0", "d1", "d2", "d3", "d4", "d5", "d6", "d7", "d8", "d9"]] "t" =
        some es ∧ es.length = 2) :=
  ⟨(claim_c7_row_counts
      [["c0", "c1", "c2", "c3", "c4", "c5", "c6", "c7", "c8", "c9"],
       ["d0", "d1", "d2", "d3", "d4", "d5", "d6", "d7", "d8", "d9"]] "t").1
     (by decide),
   (claim_c7_row_counts
      [["c0", "c1", "c2", "c3", "c4", "c5", "c6", "c7", "c8", "c9"],
       ["d0", "d1", "d2", "d3", "d4", "d5", "d6", "d7", "d8", "d9"]] "t").2.1
     (by decide),
   (claim_c7_row_counts
      [["c0", "c1", "c2", "c3", "c4", "c5", "c6", "c7", "c8", "c9"],
       ["d0", "d1", "d2", "d3", "d4", "d5", "d6", "d7", "d8", "d9"]] "t").2.2.1
     (by decide),
   (claim_c7_row_counts
      [["c0", "c1", "c2", "c3", "c4", "c5", "c6", "c7", "c8", "c9"],
       ["d0", "d1", "d2", "d3", "d4", "d5", "d6", "d7", "d8", "d9"]]
      "t").2.2.2
     (by decide)⟩

end FullRecall
